import Mathlib

set_option maxHeartbeats 1000000
set_option maxRecDepth 100000

/-!
Shallow embedding of `src/exporter.py` (docker-health-exporter): a periodic
poll-transform-publish loop that republishes per-container Docker health and
state facts as labelled Prometheus gauges.  Pure helpers of the source are
translated to Lean functions; the stateful parts (the metric registry, the
main loop) are translated to explicit state passing.  Machine floats of the
source only ever carry small exact values (0, 0.5, 1, counts, epoch seconds
with microsecond resolution), so they are modelled by `ℚ`.
-/

/-- A Python value appearing in the `RestartCount` slots of a container
descriptor: an integer or a string (anything else degrades the same way a
non-numeric string does, through the `float(...)` failure path). -/
inductive PyVal where
  | vint (n : Int)
  | vstr (s : String)
deriving DecidableEq, Repr

/-- Python truthiness for the values of `PyVal` (used by `rc or 0`). -/
def pyTruthy : PyVal → Bool
  | .vint n => n != 0
  | .vstr s => s != ""

/-- Value of a list of decimal digit characters. -/
def digitsToNat (l : List Char) : Nat :=
  l.foldl (fun a c => a * 10 + (c.toNat - 48)) 0

/-- Break a character list at the first dot: the part before, and
(if a dot occurs) the part after it. -/
def breakAtDot : List Char → (List Char × Option (List Char))
  | [] => ([], none)
  | c :: rest =>
    if c = '.' then ([], some rest)
    else
      let p := breakAtDot rest
      (c :: p.1, p.2)

/-- `float(s)` on a plain decimal string: optional sign, digits with an
optional fractional part.  Returns `none` when Python's `float` would raise
`ValueError` (empty, stray characters).  Exotic accepted forms (exponents,
`inf`, `nan`, underscores) never reach this code path for restart counts and
are modelled as failures. -/
def pyFloatOfChars (l : List Char) : Option ℚ :=
  let (sgn, body) :=
    match l with
    | '-' :: rest => ((-1 : ℚ), rest)
    | '+' :: rest => ((1 : ℚ), rest)
    | _ => ((1 : ℚ), l)
  let (ip, fp?) := breakAtDot body
  match fp? with
  | none =>
    if ip ≠ [] ∧ ip.all Char.isDigit then some (sgn * digitsToNat ip) else none
  | some fp =>
    if (ip ≠ [] ∨ fp ≠ []) ∧ ip.all Char.isDigit ∧ fp.all Char.isDigit then
      some (sgn * ((digitsToNat ip : ℚ) + (digitsToNat fp : ℚ) / (10 : ℚ) ^ fp.length))
    else none

/-- Python `str.strip()` as `float` applies it (whitespace on both ends),
on character lists so that it evaluates by kernel reduction. -/
def py_strip_chars (l : List Char) : List Char :=
  ((l.dropWhile Char.isWhitespace).reverse.dropWhile Char.isWhitespace).reverse

/-- Python `float(v)` on a `PyVal`, `none` when it raises. -/
def pyFloat : PyVal → Option ℚ
  | .vint n => some (n : ℚ)
  | .vstr s => pyFloatOfChars (py_strip_chars s.toList)

/-! ## Endpoint resolver (`_canonical_unix_path`, `_file_exists_for_unix`,
`create_docker_client`, lines 11-28 and 68-113 of the source) -/

/-- Python `s.startswith(p)`: `p` is a leading substring of `s` (stated on
the character lists so that generic facts about it can be proved). -/
def py_startswith (s p : String) : Bool :=
  p.toList.isPrefixOf s.toList

/-- Python `s.lower()` on the ASCII strings this program handles:
character-wise lower casing. -/
def py_lower (s : String) : String :=
  String.mk (s.toList.map Char.toLower)

/-- Python `s.rstrip(c)` for a single strip character. -/
def py_rstrip (s : String) (c : Char) : String :=
  String.mk ((s.toList.reverse.dropWhile (· = c)).reverse)

/-- `_canonical_unix_path` (lines 68-76). -/
def canonical_unix_path (url : String) : String :=
  if url = "" then url
  else
    let low := py_lower url
    if py_startswith low "http+docker://" || py_startswith low "http+unix://" then
      "unix:///var/run/docker.sock"
    else if py_startswith low "npipe://" then
      "npipe:////./pipe/docker_engine"
    else url

/-- `_file_exists_for_unix` (lines 78-82); `fileExists` stands for
`os.path.exists`. -/
def file_exists_for_unix (fileExists : String → Bool) (url : String) : Bool :=
  if py_startswith url "unix://" then fileExists (String.mk (url.toList.drop 7)) else false

/-- `DEFAULT_SOCKET_CANDIDATES` after the module-level insertion (lines
16-28): `xdg` is `XDG_RUNTIME_DIR` (empty string when unset or empty, both
falsy), `uid` is `os.getuid()` when it is available. -/
def default_socket_candidates (xdg : String) (uid : Option Nat) : List String :=
  let extra : Option String :=
    if xdg ≠ "" then
      some ("unix://" ++ py_rstrip xdg '/' ++ "/docker.sock")
    else
      uid.map (fun u => "unix:///run/user/" ++ toString u ++ "/docker.sock")
  match extra with
  | some e => ["unix:///var/run/docker.sock", e, "unix:///run/user/1000/docker.sock"]
  | none => ["unix:///var/run/docker.sock", "unix:///run/user/1000/docker.sock"]

/-- The candidate list built at the top of `create_docker_client` (lines
85-92): the canonicalized `DOCKER_HOST` override when set, the canonicalized
defaults deduplicated against what is already in the list, and the final
`"from_env"` sentinel. -/
def build_candidates (env_docker_host : String) (defaults : List String) : List String :=
  let c0 : List String :=
    if env_docker_host ≠ "" then [canonical_unix_path env_docker_host] else []
  let cs := defaults.foldl
    (fun acc c =>
      if canonical_unix_path c ∈ acc then acc else acc ++ [canonical_unix_path c]) c0
  cs ++ ["from_env"]

/-- The environment the resolver runs against: `os.path.exists`, a combined
`docker.DockerClient(base_url=...)` construction plus `cli.version()`
liveness call, and the combined `docker.from_env()` plus `cli.version()`
call (whose success carries the resulting `base_url`). -/
structure DockerWorld where
  fileExists : String → Bool
  connect : String → Except String Unit
  fromEnvHost : Except String String

/-- Python-dict insertion `errors[base] = str(e)`: overwrite in place when
the key exists, else append. -/
def dict_insert (d : List (String × String)) (k v : String) : List (String × String) :=
  if k ∈ d.map Prod.fst then d.map (fun kv => if kv.1 = k then (k, v) else kv)
  else d ++ [(k, v)]

/-- Result of endpoint resolution: on success the `base_url` used, on
failure (the `DockerException` of line 113) the `errors` dict of
attempted-candidate/failure-reason pairs; `attempted` records every
candidate for which a connection attempt was actually made. -/
structure ResolveResult where
  outcome : Except (List (String × String)) String
  attempted : List String
deriving Repr

/-- The candidate loop of `create_docker_client` (lines 94-113). -/
def try_candidates (w : DockerWorld) :
    List String → List (String × String) → List String → ResolveResult
  | [], errs, atts => ⟨.error errs, atts⟩
  | base :: rest, errs, atts =>
    if base = "from_env" then
      match w.fromEnvHost with
      | .ok baseUsed => ⟨.ok baseUsed, atts ++ [base]⟩
      | .error e => try_candidates w rest (dict_insert errs base e) (atts ++ [base])
    else if py_startswith base "unix://" && !file_exists_for_unix w.fileExists base then
      try_candidates w rest errs atts
    else
      match w.connect base with
      | .ok _ => ⟨.ok base, atts ++ [base]⟩
      | .error e => try_candidates w rest (dict_insert errs base e) (atts ++ [base])

/-- `create_docker_client` (lines 84-113). -/
def create_docker_client (w : DockerWorld) (env_docker_host : String)
    (defaults : List String) : ResolveResult :=
  try_candidates w (build_candidates env_docker_host defaults) [] []

/-! ## State extraction (`status_to_num` and the per-container part of
`scrape_once`, lines 115-119 and 158-190) -/

/-- `status_to_num` (lines 115-119). -/
def status_to_num (status : String) (has_check : Bool) : ℚ :=
  if !has_check then 1
  else if status = "healthy" then 1
  else if status = "starting" then 1/2
  else if status = "unhealthy" then 0
  else 0

/-- The `State.Health` sub-object: its `Status` field (absent, or a
string).  A truthy health dict is modelled as `some`; an absent (or falsy)
one as `none` in the snapshot below. -/
structure HealthObj where
  status : Option String
deriving DecidableEq, Repr

/-- The container's image object: its tag list and (optionally present)
`short_id` attribute; `none` at the snapshot level models `c.image` being
`None`. -/
structure ImageObj where
  tags : List String
  short_id : Option String
deriving DecidableEq, Repr

/-- One container's raw descriptor as read in the per-container block of
`scrape_once` (lines 158-177): everything the extraction touches. -/
structure Snapshot where
  name : String
  image : Option ImageObj
  short_id : String
  running : Bool
  health : Option HealthObj
  restart_count_top : Option PyVal
  restart_count_state : Option PyVal
  started_at : Option String
deriving DecidableEq, Repr

/-- The `img` expression of line 159:
`(c.image.tags[0] if c.image and c.image.tags else getattr(c.image, "short_id", "unknown")) or "unknown"`. -/
def image_of (s : Snapshot) : String :=
  let base :=
    match s.image with
    | some i => if i.tags ≠ [] then i.tags.headD "" else i.short_id.getD "unknown"
    | none => "unknown"
  if base = "" then "unknown" else base

/-- `(health.get("Status") or "unknown").lower()` for a present health
object (line 184). -/
def health_lowered (hh : HealthObj) : String :=
  py_lower
    (match hh.status with
     | none => "unknown"
     | some s => if s = "" then "unknown" else s)

/-- The `status` value published on the one-hot metric (lines 183-189). -/
def health_status_of (h : Option HealthObj) : String :=
  match h with
  | some hh =>
    let st := health_lowered hh
    if st = "healthy" ∨ st = "starting" ∨ st = "unhealthy" then st else "none"
  | none => "none"

/-- The `num` value published on `docker_container_health` (lines
183-190). -/
def health_num_of (h : Option HealthObj) : ℚ :=
  match h with
  | some hh => status_to_num (health_lowered hh) true
  | none => status_to_num "none" false

/-- The restart-count extraction (lines 167-174): prefer the top-level
`RestartCount`, fall back to `State.RestartCount`, then
`float(rc or 0)` guarded by `try`/`except`. -/
def restart_count_of (top st : Option PyVal) : ℚ :=
  let rc := match top with
    | some v => some v
    | none => st
  let sel := match rc with
    | none => PyVal.vint 0
    | some v => if pyTruthy v then v else PyVal.vint 0
  (pyFloat sel).getD 0

/-! ## Timestamp parsing (`parse_started_at`, lines 132-146)

The source calls `datetime.fromisoformat` on a string it has first
stripped of trailing `Z` characters and truncated to at most six
fractional-second digits, then replaces the timezone with UTC and takes
`.timestamp()`.  The model below reproduces `fromisoformat` on the
grammar it accepts for such inputs (proleptic-Gregorian date, optional
time, optional numeric offset) and computes the exact epoch value. -/

/-- A naive (wall-clock) datetime as produced by `datetime.fromisoformat`,
before any timezone handling. -/
structure NaiveDT where
  year : Nat
  month : Nat
  day : Nat
  hour : Nat
  minute : Nat
  second : Nat
  micro : Nat
deriving DecidableEq, Repr

/-- Read exactly `n` decimal digits from the front of a character list. -/
def readDigitsN (n : Nat) (l : List Char) : Option (Nat × List Char) :=
  let pre := l.take n
  if pre.length = n ∧ pre.all Char.isDigit then some (digitsToNat pre, l.drop n)
  else none

/-- Expect a specific character at the front of a character list. -/
def expectChar (c : Char) : List Char → Option (List Char)
  | [] => none
  | x :: rest => if x = c then some rest else none

def isLeapYear (y : Nat) : Bool :=
  (y % 4 = 0 && y % 100 ≠ 0) || y % 400 = 0

def days_in_month (y m : Nat) : Nat :=
  if m = 2 then (if isLeapYear y then 29 else 28)
  else if m = 4 ∨ m = 6 ∨ m = 9 ∨ m = 11 then 30
  else 31

/-- Fractional seconds after the dot: one to six digits, scaled to
microseconds (as `datetime.fromisoformat` does). -/
def readFraction (l : List Char) : Option (Nat × List Char) :=
  let ds := l.takeWhile Char.isDigit
  if ds.length = 0 ∨ ds.length > 6 then none
  else some (digitsToNat ds * 10 ^ (6 - ds.length), l.drop ds.length)

/-- The `[:MM[:SS[.ffffff]]]` tail of the time part. -/
def readRestTime (l : List Char) : Option (Nat × Nat × Nat × List Char) :=
  match l with
  | ':' :: r => do
    let (mi, r) ← readDigitsN 2 r
    match r with
    | ':' :: r2 => do
      let (se, r2) ← readDigitsN 2 r2
      match r2 with
      | '.' :: r3 => do
        let (us, r4) ← readFraction r3
        pure (mi, se, us, r4)
      | _ => pure (mi, se, 0, r2)
    | _ => pure (mi, 0, 0, r)
  | _ => pure (0, 0, 0, l)

/-- A numeric UTC offset `±HH:MM[:SS]`, in seconds; must consume the whole
remainder of the string. -/
def readOffset (l : List Char) : Option Int := do
  let (sgn, rest) ←
    match l with
    | '+' :: r => some ((1 : Int), r)
    | '-' :: r => some ((-1 : Int), r)
    | _ => none
  let (oh, rest) ← readDigitsN 2 rest
  let rest ← expectChar ':' rest
  let (om, rest) ← readDigitsN 2 rest
  let (os, rest) ←
    match rest with
    | ':' :: r2 => readDigitsN 2 r2
    | _ => some (0, rest)
  if rest = [] ∧ oh ≤ 23 ∧ om ≤ 59 ∧ os ≤ 59 then
    pure (sgn * ((oh * 3600 + om * 60 + os : Nat) : Int))
  else none

/-- `datetime.fromisoformat` on the inputs this program can feed it:
`YYYY-MM-DD`, optionally a single separator character and
`HH[:MM[:SS[.ffffff]]]`, optionally a numeric offset.  Field ranges are
validated as `datetime` does; failure models the `ValueError` caught by
`parse_started_at`. -/
def fromisoformat_chars (l : List Char) : Option (NaiveDT × Option Int) := do
  let (y, l) ← readDigitsN 4 l
  let l ← expectChar '-' l
  let (mo, l) ← readDigitsN 2 l
  let l ← expectChar '-' l
  let (d, l) ← readDigitsN 2 l
  let valid := 1 ≤ y ∧ 1 ≤ mo ∧ mo ≤ 12 ∧ 1 ≤ d ∧ d ≤ days_in_month y mo
  match l with
  | [] => if valid then pure (⟨y, mo, d, 0, 0, 0, 0⟩, none) else none
  | _sep :: lt => do
    let (h, lt) ← readDigitsN 2 lt
    let (mi, se, us, lt) ← readRestTime lt
    let off ←
      match lt with
      | [] => some (none : Option Int)
      | rest => (readOffset rest).map some
    if valid ∧ h ≤ 23 ∧ mi ≤ 59 ∧ se ≤ 59 then
      pure (⟨y, mo, d, h, mi, se, us⟩, off)
    else none

/-- Proleptic-Gregorian ordinal of a date (day 1 = 0001-01-01), exactly
`datetime.toordinal`. -/
def toordinal (y m d : Nat) : Nat :=
  (365 * (y - 1) + (y - 1) / 4 + (y - 1) / 400 - (y - 1) / 100)
    + (List.range (m - 1)).foldl (fun a i => a + days_in_month y (i + 1)) 0
    + d

/-- `datetime.timestamp()` of a UTC-aware datetime: seconds since
1970-01-01T00:00:00Z (ordinal of the epoch day is 719163). -/
def dt_timestamp (dt : NaiveDT) : ℚ :=
  (((toordinal dt.year dt.month dt.day : Int) - 719163 : Int) : ℚ) * 86400
    + ((dt.hour * 3600 + dt.minute * 60 + dt.second : Nat) : ℚ)
    + (dt.micro : ℚ) / 1000000

/-- `started_at_str.rstrip("Z")` (line 138). -/
def rstripZ (l : List Char) : List Char :=
  (l.reverse.dropWhile (· = 'Z')).reverse

/-- The fractional-part truncation of lines 140-142: split once at the
first dot and keep at most six fractional digits. -/
def truncate_frac_chars (l : List Char) : List Char :=
  if '.' ∈ l then
    l.takeWhile (· ≠ '.') ++ '.' :: ((l.dropWhile (· ≠ '.')).drop 1).take 6
  else l

/-- `parse_started_at` (lines 132-146) on the character list of its input.
The `.replace(tzinfo=timezone.utc)` of line 143 discards whatever offset
`fromisoformat` produced, so only the naive wall-clock fields reach
`timestamp()`. -/
def parse_started_at_chars (l : List Char) : Option ℚ :=
  if l = [] then none
  else
    match fromisoformat_chars (truncate_frac_chars (rstripZ l)) with
    | some (dt, _off) => some (dt_timestamp dt)
    | none => none

/-- `parse_started_at` (lines 132-146). -/
def parse_started_at (s : String) : Option ℚ :=
  parse_started_at_chars s.toList

/-- The `started_at` value published by `scrape_once` (lines 176-180):
`st.get("StartedAt") or ""` fed to `parse_started_at`, `0.0` on `None`. -/
def started_at_of (sa : Option String) : ℚ :=
  (parse_started_at (sa.getD "")).getD 0

/-! ## Series registry and the scrape pass (`set_one_hot`, `scrape_once`,
lines 121-130 and 148-221)

A Prometheus `Gauge` with its label tuples is modelled as a partial map
from label tuple to value; `labels(...).set(v)` overwrites the tuple's
value, `remove(*labels)` deletes it (the `try ... except: pass` around
`remove` makes double removal a no-op, which the map model gives for
free). -/

/-- `(container, image, id, hostname)`. -/
abbrev LabelTuple := String × String × String × String

/-- `(container, image, id, hostname, status)`. -/
abbrev StatusTuple := String × String × String × String × String

/-- A gauge's published series: label tuple to current value. -/
abbrev Gauge (α : Type) := α → Option ℚ

def Gauge.set {α : Type} [DecidableEq α] (g : Gauge α) (t : α) (v : ℚ) : Gauge α :=
  fun x => if x = t then some v else g x

def Gauge.remove {α : Type} [DecidableEq α] (g : Gauge α) (t : α) : Gauge α :=
  fun x => if x = t then none else g x

/-- The stale-series removal loops of lines 206-219: remove every tuple of
the given list (removal of an already-absent tuple is a no-op). -/
def removeAll {α : Type} [DecidableEq α] (g : Gauge α) (l : List α) : Gauge α :=
  l.foldl Gauge.remove g

/-- The fixed category order iterated by `set_one_hot` (line 123). -/
def status_categories : List String := ["healthy", "starting", "unhealthy", "none"]

/-- The four one-hot rows of one container identity. -/
def status_tuples (container image cid host : String) : List StatusTuple :=
  status_categories.map (fun s => (container, image, cid, host, s))

/-- `set_one_hot` (lines 121-130): writes all four category rows of the
identity (the one matching `status_value` to 1, the rest to 0) and adds the
four tuples to the module-global `_last_s` set. -/
def set_one_hot (g : Gauge StatusTuple) (lastS : List StatusTuple)
    (container image cid host status_value : String) :
    Gauge StatusTuple × List StatusTuple :=
  let g := status_categories.foldl
    (fun g s => g.set (container, image, cid, host, s) (if s = status_value then 1 else 0)) g
  (g, lastS ++ status_tuples container image cid host)

/-- One entry of the list returned by `client.containers.list(all=True)`,
as seen by the per-container `try` block: either the whole extraction
succeeds with the data of `Snapshot`, or some step of it (reload, attribute
access) raises, with the container's best-known name (`None` when even
`c.name` is unavailable, printed as `?`) and the exception text. -/
inductive ContainerObs where
  | ok (s : Snapshot)
  | err (name : Option String) (msg : String)
deriving DecidableEq, Repr

/-- The successfully processed snapshots of a tick, in order. -/
def ok_snaps (cs : List ContainerObs) : List Snapshot :=
  cs.filterMap (fun c => match c with | .ok s => some s | .err _ _ => none)

/-- The `(name, img, cid, host)` label tuple of lines 192-201. -/
def identity_of (host : String) (s : Snapshot) : LabelTuple :=
  (s.name, image_of s, s.short_id, host)

/-- The four one-hot tuples of a snapshot's identity. -/
def status_tuples_of (host : String) (s : Snapshot) : List StatusTuple :=
  status_tuples s.name (image_of s) s.short_id host

/-- The `[warn]` line printed for a failed container (line 204). -/
def warn_line (name : Option String) (msg : String) : String :=
  "[warn] container " ++ name.getD "?" ++ ": " ++ msg

/-- The in-flight state of one `scrape_once` pass: the five gauges, the
five `now_*` sets being accumulated, and the module-global `_last_s`
(which `set_one_hot` mutates mid-pass). -/
structure ScrapeAcc where
  gH : Gauge LabelTuple
  gS : Gauge StatusTuple
  gRn : Gauge LabelTuple
  gRc : Gauge LabelTuple
  gSa : Gauge LabelTuple
  nowH : List LabelTuple
  nowS : List StatusTuple
  nowRn : List LabelTuple
  nowRc : List LabelTuple
  nowSa : List LabelTuple
  lastS : List StatusTuple

/-- The body of the `for c in containers` loop (lines 156-204): an
erroring container changes nothing (its log line is accounted separately),
a successful one publishes all five metrics and records its tuples. -/
def process_container (host : String) (acc : ScrapeAcc) (c : ContainerObs) : ScrapeAcc :=
  match c with
  | .err _ _ => acc
  | .ok s =>
    let img := image_of s
    let cid := s.short_id
    let name := s.name
    let running : ℚ := if s.running then 1 else 0
    let rc := restart_count_of s.restart_count_top s.restart_count_state
    let sa := started_at_of s.started_at
    let status := health_status_of s.health
    let num := health_num_of s.health
    let t : LabelTuple := (name, img, cid, host)
    let oneHot := set_one_hot acc.gS acc.lastS name img cid host status
    { gH := acc.gH.set t num
      gS := oneHot.1
      gRn := acc.gRn.set t running
      gRc := acc.gRc.set t rc
      gSa := acc.gSa.set t sa
      nowH := acc.nowH ++ [t]
      nowS := acc.nowS ++ status_tuples_of host s
      nowRn := acc.nowRn ++ [t]
      nowRc := acc.nowRc ++ [t]
      nowSa := acc.nowSa ++ [t]
      lastS := oneHot.2 }

/-- The exporter's registry between ticks: the five gauges plus the five
`_last_*` label-tuple sets. -/
structure Registry where
  gH : Gauge LabelTuple
  gS : Gauge StatusTuple
  gRn : Gauge LabelTuple
  gRc : Gauge LabelTuple
  gSa : Gauge LabelTuple
  lastH : List LabelTuple
  lastS : List StatusTuple
  lastRn : List LabelTuple
  lastRc : List LabelTuple
  lastSa : List LabelTuple

/-- The accumulator `scrape_once` starts a pass with: the current gauges,
empty `now_*` sets, and the current `_last_s`. -/
def scrape_acc0 (reg : Registry) : ScrapeAcc :=
  { gH := reg.gH, gS := reg.gS, gRn := reg.gRn, gRc := reg.gRc, gSa := reg.gSa
    nowH := [], nowS := [], nowRn := [], nowRc := [], nowSa := []
    lastS := reg.lastS }

/-- `scrape_once` (lines 148-221): process every container, remove the
stale series (`last - now`, for the one-hot metric against the mutated
`_last_s`), and retain the `now` sets as the next tick's baseline.  Also
returns the `[warn]` log lines of the failed containers. -/
def scrape_once (host : String) (reg : Registry) (containers : List ContainerObs) :
    Registry × List String :=
  let acc := containers.foldl (process_container host) (scrape_acc0 reg)
  let reg1 : Registry :=
    { gH := removeAll acc.gH (reg.lastH.filter (fun x => x ∉ acc.nowH))
      gS := removeAll acc.gS (acc.lastS.filter (fun x => x ∉ acc.nowS))
      gRn := removeAll acc.gRn (reg.lastRn.filter (fun x => x ∉ acc.nowRn))
      gRc := removeAll acc.gRc (reg.lastRc.filter (fun x => x ∉ acc.nowRc))
      gSa := removeAll acc.gSa (reg.lastSa.filter (fun x => x ∉ acc.nowSa))
      lastH := acc.nowH, lastS := acc.nowS, lastRn := acc.nowRn
      lastRc := acc.nowRc, lastSa := acc.nowSa }
  (reg1, containers.filterMap (fun c => match c with
    | .ok _ => none
    | .err n m => some (warn_line n m)))

/-! ## Poll loop (`main`, lines 223-243) -/

/-- What one pass of the body can observe: a normal scrape, a
`DockerException` (connection-level failure), or another exception. -/
inductive ScrapeOut where
  | ok
  | dockerErr
  | otherErr
deriving DecidableEq, Repr

/-- The loop's state between iterations: whether `client` is set, and the
current `backoff` value. -/
structure LoopState where
  connected : Bool
  backoff : ℚ
deriving DecidableEq, Repr

/-- One iteration of the `while True` loop (lines 229-243): reconnect when
disconnected (resetting backoff to 1.0 on success), run a scrape, drop the
client on `DockerException`, keep it on other exceptions; then sleep
`INTERVAL` when connected, else `min(backoff, 30.0)`, and double the capped
backoff when still disconnected.  `resolveOk` tells whether
`create_docker_client` would succeed this iteration; the scrape outcome is
ignored when resolution fails (the scrape is never reached). -/
def loop_iter (interval : ℚ) (st : LoopState) (resolveOk : Bool) (scr : ScrapeOut) :
    LoopState × ℚ :=
  let connected :=
    if st.connected then (match scr with | .dockerErr => false | _ => true)
    else if resolveOk then (match scr with | .dockerErr => false | _ => true)
    else false
  let b1 := if st.connected then st.backoff else if resolveOk then 1 else st.backoff
  let sleep := if connected then interval else min b1 30
  let b2 := if connected then b1 else min (b1 * 2) 30
  (⟨connected, b2⟩, sleep)

/-! ## Reference definition for the offset claim, and concrete sample data -/

/-- Modelled from the claim's reading of what an offset-carrying start
timestamp actually denotes: the wall-clock fields interpreted in the stated
offset, i.e. the wall-clock epoch minus the offset (in seconds).  This is
the reference value the code's UTC reinterpretation is compared against;
the code itself never subtracts the offset. -/
def started_at_denoted_chars (l : List Char) : Option ℚ :=
  if l = [] then none
  else
    match fromisoformat_chars (truncate_frac_chars (rstripZ l)) with
    | some (dt, off) => some (dt_timestamp dt - ((off.getD 0 : Int) : ℚ))
    | none => none

/-- String-level wrapper of `started_at_denoted_chars`. -/
def started_at_denoted (s : String) : Option ℚ :=
  started_at_denoted_chars s.toList

/-- A concrete healthy container snapshot, used to instantiate witness
statements. -/
def sample_snap : Snapshot :=
  { name := "web", image := some { tags := ["nginx:latest"], short_id := some "sha256:ab" }
    short_id := "c0ffee", running := true, health := some { status := some "healthy" }
    restart_count_top := some (.vint 2), restart_count_state := none
    started_at := some "2025-11-06T21:27:08Z" }

/-- A concrete container list with one failing container. -/
def sample_containers : List ContainerObs :=
  [.ok sample_snap, .err (some "db") "inspect failed"]

/-- A concrete resolver environment in which nothing is reachable. -/
def sample_world : DockerWorld :=
  { fileExists := fun _ => false
    connect := fun _ => .error "connection refused"
    fromEnvHost := .error "env failure" }

/-! ## Helper lemmas -/

theorem Gauge.set_apply {α : Type} [DecidableEq α] (g : Gauge α) (t : α) (v : ℚ) (x : α) :
    g.set t v x = if x = t then some v else g x := rfl

theorem Gauge.remove_apply {α : Type} [DecidableEq α] (g : Gauge α) (t : α) (x : α) :
    g.remove t x = if x = t then none else g x := rfl

theorem removeAll_apply {α : Type} [DecidableEq α] (l : List α) (g : Gauge α) (x : α) :
    removeAll g l x = if x ∈ l then none else g x := by
  induction l generalizing g with
  | nil => simp [removeAll]
  | cons a l ih =>
    show removeAll (g.remove a) l x = _
    rw [ih]
    by_cases hx : x = a <;> by_cases hl : x ∈ l <;>
      simp [hx, hl, Gauge.remove_apply]

theorem ok_snaps_nil : ok_snaps [] = [] := rfl

theorem ok_snaps_cons_ok (s : Snapshot) (cs : List ContainerObs) :
    ok_snaps (.ok s :: cs) = s :: ok_snaps cs := rfl

theorem ok_snaps_cons_err (n : Option String) (m : String) (cs : List ContainerObs) :
    ok_snaps (.err n m :: cs) = ok_snaps cs := rfl

theorem process_container_err (host : String) (acc : ScrapeAcc) (n : Option String)
    (m : String) : process_container host acc (.err n m) = acc := rfl

theorem foldl_nowH (host : String) (cs : List ContainerObs) (acc : ScrapeAcc) :
    (cs.foldl (process_container host) acc).nowH
      = acc.nowH ++ (ok_snaps cs).map (identity_of host) := by
  induction cs generalizing acc with
  | nil => simp [ok_snaps_nil]
  | cons c cs ih =>
    cases c with
    | err n m => rw [List.foldl_cons, process_container_err, ih, ok_snaps_cons_err]
    | ok s =>
      rw [List.foldl_cons, ih, ok_snaps_cons_ok, List.map_cons]
      simp [process_container, identity_of]

theorem foldl_nowRn (host : String) (cs : List ContainerObs) (acc : ScrapeAcc) :
    (cs.foldl (process_container host) acc).nowRn
      = acc.nowRn ++ (ok_snaps cs).map (identity_of host) := by
  induction cs generalizing acc with
  | nil => simp [ok_snaps_nil]
  | cons c cs ih =>
    cases c with
    | err n m => rw [List.foldl_cons, process_container_err, ih, ok_snaps_cons_err]
    | ok s =>
      rw [List.foldl_cons, ih, ok_snaps_cons_ok, List.map_cons]
      simp [process_container, identity_of]

theorem foldl_nowRc (host : String) (cs : List ContainerObs) (acc : ScrapeAcc) :
    (cs.foldl (process_container host) acc).nowRc
      = acc.nowRc ++ (ok_snaps cs).map (identity_of host) := by
  induction cs generalizing acc with
  | nil => simp [ok_snaps_nil]
  | cons c cs ih =>
    cases c with
    | err n m => rw [List.foldl_cons, process_container_err, ih, ok_snaps_cons_err]
    | ok s =>
      rw [List.foldl_cons, ih, ok_snaps_cons_ok, List.map_cons]
      simp [process_container, identity_of]

theorem foldl_nowSa (host : String) (cs : List ContainerObs) (acc : ScrapeAcc) :
    (cs.foldl (process_container host) acc).nowSa
      = acc.nowSa ++ (ok_snaps cs).map (identity_of host) := by
  induction cs generalizing acc with
  | nil => simp [ok_snaps_nil]
  | cons c cs ih =>
    cases c with
    | err n m => rw [List.foldl_cons, process_container_err, ih, ok_snaps_cons_err]
    | ok s =>
      rw [List.foldl_cons, ih, ok_snaps_cons_ok, List.map_cons]
      simp [process_container, identity_of]

theorem foldl_nowS (host : String) (cs : List ContainerObs) (acc : ScrapeAcc) :
    (cs.foldl (process_container host) acc).nowS
      = acc.nowS ++ (ok_snaps cs).flatMap (status_tuples_of host) := by
  induction cs generalizing acc with
  | nil => simp [ok_snaps_nil]
  | cons c cs ih =>
    cases c with
    | err n m => rw [List.foldl_cons, process_container_err, ih, ok_snaps_cons_err]
    | ok s =>
      rw [List.foldl_cons, ih, ok_snaps_cons_ok, List.flatMap_cons]
      simp [process_container]

theorem foldl_lastS (host : String) (cs : List ContainerObs) (acc : ScrapeAcc) :
    (cs.foldl (process_container host) acc).lastS
      = acc.lastS ++ (ok_snaps cs).flatMap (status_tuples_of host) := by
  induction cs generalizing acc with
  | nil => simp [ok_snaps_nil]
  | cons c cs ih =>
    cases c with
    | err n m => rw [List.foldl_cons, process_container_err, ih, ok_snaps_cons_err]
    | ok s =>
      rw [List.foldl_cons, ih, ok_snaps_cons_ok, List.flatMap_cons]
      simp [process_container, set_one_hot, status_tuples_of]

theorem foldl_set_keyed_isSome {α β : Type} [DecidableEq α] (ks : List β) (key : β → α)
    (f : β → ℚ) (g : Gauge α) (x : α) :
    ((ks.foldl (fun g k => Gauge.set g (key k) (f k)) g) x).isSome
      ↔ x ∈ ks.map key ∨ (g x).isSome := by
  induction ks generalizing g with
  | nil => simp
  | cons a ks ih =>
    rw [List.foldl_cons, ih]
    by_cases hx : x = key a <;> simp [hx, Gauge.set_apply]

theorem set_one_hot_fst_isSome (g : Gauge StatusTuple) (lastS : List StatusTuple)
    (container image cid host st : String) (y : StatusTuple) :
    ((set_one_hot g lastS container image cid host st).1 y).isSome
      ↔ y ∈ status_tuples container image cid host ∨ (g y).isSome := by
  have h := foldl_set_keyed_isSome status_categories
    (fun s => ((container, image, cid, host, s) : StatusTuple))
    (fun s => if s = st then (1 : ℚ) else 0) g y
  exact h

theorem foldl_gH_isSome (host : String) (cs : List ContainerObs) (acc : ScrapeAcc)
    (x : LabelTuple) :
    ((cs.foldl (process_container host) acc).gH x).isSome
      ↔ x ∈ (ok_snaps cs).map (identity_of host) ∨ (acc.gH x).isSome := by
  induction cs generalizing acc with
  | nil => simp [ok_snaps_nil]
  | cons c cs ih =>
    cases c with
    | err n m =>
      rw [List.foldl_cons, process_container_err, ih, ok_snaps_cons_err]
    | ok s =>
      rw [List.foldl_cons, ih, ok_snaps_cons_ok, List.map_cons]
      have : (process_container host acc (.ok s)).gH
          = acc.gH.set (identity_of host s) (health_num_of s.health) := rfl
      rw [this]
      by_cases hx : x = identity_of host s <;> simp [hx, Gauge.set_apply]

theorem foldl_gRn_isSome (host : String) (cs : List ContainerObs) (acc : ScrapeAcc)
    (x : LabelTuple) :
    ((cs.foldl (process_container host) acc).gRn x).isSome
      ↔ x ∈ (ok_snaps cs).map (identity_of host) ∨ (acc.gRn x).isSome := by
  induction cs generalizing acc with
  | nil => simp [ok_snaps_nil]
  | cons c cs ih =>
    cases c with
    | err n m =>
      rw [List.foldl_cons, process_container_err, ih, ok_snaps_cons_err]
    | ok s =>
      rw [List.foldl_cons, ih, ok_snaps_cons_ok, List.map_cons]
      have : (process_container host acc (.ok s)).gRn
          = acc.gRn.set (identity_of host s) (if s.running then 1 else 0) := rfl
      rw [this]
      by_cases hx : x = identity_of host s <;> simp [hx, Gauge.set_apply]

theorem foldl_gRc_isSome (host : String) (cs : List ContainerObs) (acc : ScrapeAcc)
    (x : LabelTuple) :
    ((cs.foldl (process_container host) acc).gRc x).isSome
      ↔ x ∈ (ok_snaps cs).map (identity_of host) ∨ (acc.gRc x).isSome := by
  induction cs generalizing acc with
  | nil => simp [ok_snaps_nil]
  | cons c cs ih =>
    cases c with
    | err n m =>
      rw [List.foldl_cons, process_container_err, ih, ok_snaps_cons_err]
    | ok s =>
      rw [List.foldl_cons, ih, ok_snaps_cons_ok, List.map_cons]
      have : (process_container host acc (.ok s)).gRc
          = acc.gRc.set (identity_of host s)
              (restart_count_of s.restart_count_top s.restart_count_state) := rfl
      rw [this]
      by_cases hx : x = identity_of host s <;> simp [hx, Gauge.set_apply]

theorem foldl_gSa_isSome (host : String) (cs : List ContainerObs) (acc : ScrapeAcc)
    (x : LabelTuple) :
    ((cs.foldl (process_container host) acc).gSa x).isSome
      ↔ x ∈ (ok_snaps cs).map (identity_of host) ∨ (acc.gSa x).isSome := by
  induction cs generalizing acc with
  | nil => simp [ok_snaps_nil]
  | cons c cs ih =>
    cases c with
    | err n m =>
      rw [List.foldl_cons, process_container_err, ih, ok_snaps_cons_err]
    | ok s =>
      rw [List.foldl_cons, ih, ok_snaps_cons_ok, List.map_cons]
      have : (process_container host acc (.ok s)).gSa
          = acc.gSa.set (identity_of host s) (started_at_of s.started_at) := rfl
      rw [this]
      by_cases hx : x = identity_of host s <;> simp [hx, Gauge.set_apply]

theorem foldl_gS_isSome (host : String) (cs : List ContainerObs) (acc : ScrapeAcc)
    (y : StatusTuple) :
    ((cs.foldl (process_container host) acc).gS y).isSome
      ↔ y ∈ (ok_snaps cs).flatMap (status_tuples_of host) ∨ (acc.gS y).isSome := by
  induction cs generalizing acc with
  | nil => simp [ok_snaps_nil]
  | cons c cs ih =>
    cases c with
    | err n m =>
      rw [List.foldl_cons, process_container_err, ih, ok_snaps_cons_err]
    | ok s =>
      rw [List.foldl_cons, ih, ok_snaps_cons_ok, List.flatMap_cons]
      have : (process_container host acc (.ok s)).gS
          = (set_one_hot acc.gS acc.lastS s.name (image_of s) s.short_id host
              (health_status_of s.health)).1 := rfl
      rw [this]
      rw [set_one_hot_fst_isSome]
      simp only [status_tuples_of, List.mem_append]
      tauto

/-- The value `set_one_hot` leaves on each of the four category rows of the
identity it writes. -/
theorem set_one_hot_apply_cat (g : Gauge StatusTuple) (lastS : List StatusTuple)
    (container image cid host st cat : String) (hcat : cat ∈ status_categories) :
    (set_one_hot g lastS container image cid host st).1 (container, image, cid, host, cat)
      = some (if cat = st then 1 else 0) := by
  have hhs : ("healthy" : String) ≠ "starting" := by decide
  have hhu : ("healthy" : String) ≠ "unhealthy" := by decide
  have hhn : ("healthy" : String) ≠ "none" := by decide
  have hsu : ("starting" : String) ≠ "unhealthy" := by decide
  have hsn : ("starting" : String) ≠ "none" := by decide
  have hun : ("unhealthy" : String) ≠ "none" := by decide
  simp only [status_categories, List.mem_cons, List.not_mem_nil, or_false] at hcat
  rcases hcat with rfl | rfl | rfl | rfl <;>
    simp [set_one_hot, status_categories, Gauge.set_apply, hhs, hhu, hhn, hsu, hsn, hun,
      hhs.symm, hhu.symm, hhn.symm, hsu.symm, hsn.symm, hun.symm]

/-- `set_one_hot` does not touch rows of a different identity. -/
theorem set_one_hot_apply_ne (g : Gauge StatusTuple) (lastS : List StatusTuple)
    (container image cid host st : String) (y : StatusTuple)
    (hy : ∀ cat, y ≠ (container, image, cid, host, cat)) :
    (set_one_hot g lastS container image cid host st).1 y = g y := by
  simp [set_one_hot, status_categories, Gauge.set_apply, hy]

/-- The one-hot shape of the four category rows of one identity in the
status gauge: all four rows are present, the one matching some category
carries 1 and the other three carry 0. -/
def OneHotG (g : Gauge StatusTuple) (container image cid host : String) : Prop :=
  ∃ st, st ∈ status_categories ∧ ∀ cat ∈ status_categories,
    g (container, image, cid, host, cat) = some (if cat = st then 1 else 0)

/-- The published one-hot status is always one of the four categories
(lines 183-189 normalize everything else to `none`). -/
theorem health_status_of_mem (h : Option HealthObj) :
    health_status_of h ∈ status_categories := by
  cases h with
  | none => simp [health_status_of, status_categories]
  | some hh =>
    simp only [health_status_of]
    by_cases hc : health_lowered hh = "healthy" ∨ health_lowered hh = "starting"
        ∨ health_lowered hh = "unhealthy"
    · rw [if_pos hc]
      rcases hc with h1 | h1 | h1 <;> simp [h1, status_categories]
    · rw [if_neg hc]
      simp [status_categories]

theorem set_one_hot_onehot (g : Gauge StatusTuple) (lastS : List StatusTuple)
    (container image cid host st : String) (hst : st ∈ status_categories) :
    OneHotG (set_one_hot g lastS container image cid host st).1 container image cid host :=
  ⟨st, hst, fun cat hcat => set_one_hot_apply_cat g lastS container image cid host st cat hcat⟩

theorem foldl_onehot (host : String) (cs : List ContainerObs) (acc : ScrapeAcc)
    (n i c h : String)
    (hyp : (n, i, c, h) ∈ (ok_snaps cs).map (identity_of host) ∨ OneHotG acc.gS n i c h) :
    OneHotG (cs.foldl (process_container host) acc).gS n i c h := by
  induction cs generalizing acc with
  | nil =>
    rcases hyp with hmem | hone
    · simp [ok_snaps_nil] at hmem
    · simpa using hone
  | cons cobs cs ih =>
    cases cobs with
    | err nm m =>
      rw [List.foldl_cons, process_container_err]
      apply ih
      rwa [ok_snaps_cons_err] at hyp
    | ok s =>
      rw [List.foldl_cons]
      have hgS : (process_container host acc (.ok s)).gS
          = (set_one_hot acc.gS acc.lastS s.name (image_of s) s.short_id host
              (health_status_of s.health)).1 := rfl
      apply ih
      by_cases hid : ((n, i, c, h) : LabelTuple) = identity_of host s
      · right
        rw [hgS]
        have h1 : n = s.name ∧ i = image_of s ∧ c = s.short_id ∧ h = host := by
          simpa [identity_of, Prod.ext_iff] using hid
        obtain ⟨rfl, rfl, rfl, rfl⟩ := h1
        exact set_one_hot_onehot _ _ _ _ _ _ _ (health_status_of_mem s.health)
      · rw [ok_snaps_cons_ok, List.map_cons] at hyp
        rcases hyp with hmem | hone
        · rcases List.mem_cons.mp hmem with heq | hmem2
          · exact absurd heq hid
          · exact Or.inl hmem2
        · right
          obtain ⟨st, hst, hrows⟩ := hone
          refine ⟨st, hst, fun cat hcat => ?_⟩
          rw [hgS, set_one_hot_apply_ne]
          · exact hrows cat hcat
          · intro cat2 heq
            apply hid
            simp only [Prod.mk.injEq] at heq
            simp [identity_of, Prod.ext_iff, heq.1, heq.2.1, heq.2.2.1, heq.2.2.2.1]


/-- Reconciliation, per metric: overwrite the current tuples, then remove
the stale list (`last - now`); provided the pre-tick published set was
exactly `last`, the post-tick published set is exactly `now`. -/
theorem reconcile_published {α : Type} [DecidableEq α]
    (gMid gBefore : Gauge α) (last now rem : List α)
    (h1 : ∀ x, (gMid x).isSome ↔ x ∈ now ∨ (gBefore x).isSome)
    (h2 : ∀ x, (gBefore x).isSome ↔ x ∈ last)
    (hrem : ∀ x, x ∈ rem ↔ x ∈ last ∧ x ∉ now) (x : α) :
    ((removeAll gMid rem) x).isSome ↔ x ∈ now := by
  rw [removeAll_apply]
  by_cases hx : x ∈ rem
  · rw [if_pos hx]
    simp [((hrem x).mp hx).2]
  · rw [if_neg hx]
    rw [h1, h2]
    rw [hrem] at hx
    constructor
    · rintro (h | h)
      · exact h
      · by_contra hnow
        exact hx ⟨h, hnow⟩
    · exact Or.inl

/-- Registry consistency: each metric's published tuple set is exactly its
recorded `_last_*` set.  This holds at process start (no series, empty
sets) and, by the main invariant theorem, is re-established by every
tick. -/
def Consistent (reg : Registry) : Prop :=
  (∀ x : LabelTuple, (reg.gH x).isSome ↔ x ∈ reg.lastH) ∧
  (∀ y : StatusTuple, (reg.gS y).isSome ↔ y ∈ reg.lastS) ∧
  (∀ x : LabelTuple, (reg.gRn x).isSome ↔ x ∈ reg.lastRn) ∧
  (∀ x : LabelTuple, (reg.gRc x).isSome ↔ x ∈ reg.lastRc) ∧
  (∀ x : LabelTuple, (reg.gSa x).isSome ↔ x ∈ reg.lastSa)

/-- The registry at process start: no series published, all `_last_*`
sets empty (lines 31-62). -/
def initial_registry : Registry :=
  { gH := fun _ => none, gS := fun _ => none, gRn := fun _ => none
    gRc := fun _ => none, gSa := fun _ => none
    lastH := [], lastS := [], lastRn := [], lastRc := [], lastSa := [] }

theorem initial_registry_consistent : Consistent initial_registry := by
  refine ⟨?_, ?_, ?_, ?_, ?_⟩ <;> intro x <;> simp [initial_registry]

/-- C1: after a tick completes, each of the five metrics publishes exactly
the label tuples derived from the current container list — containers whose
per-container processing raised contribute none, tuples of the previous
tick that are not re-derived are removed — and the one-hot status metric is
diffed at the five-tuple (identity plus category) granularity.  Registry
consistency (published set = recorded `_last_*` set) is re-established, so
the invariant propagates tick to tick from the initial registry. -/
theorem scrape_once_tick_invariant (host : String) (reg : Registry)
    (cs : List ContainerObs) (hreg : Consistent reg) :
    (∀ x : LabelTuple, ((scrape_once host reg cs).1.gH x).isSome
        ↔ x ∈ (ok_snaps cs).map (identity_of host)) ∧
    (∀ y : StatusTuple, ((scrape_once host reg cs).1.gS y).isSome
        ↔ y ∈ (ok_snaps cs).flatMap (status_tuples_of host)) ∧
    (∀ x : LabelTuple, ((scrape_once host reg cs).1.gRn x).isSome
        ↔ x ∈ (ok_snaps cs).map (identity_of host)) ∧
    (∀ x : LabelTuple, ((scrape_once host reg cs).1.gRc x).isSome
        ↔ x ∈ (ok_snaps cs).map (identity_of host)) ∧
    (∀ x : LabelTuple, ((scrape_once host reg cs).1.gSa x).isSome
        ↔ x ∈ (ok_snaps cs).map (identity_of host)) ∧
    Consistent (scrape_once host reg cs).1 := by
  obtain ⟨hH, hS, hRn, hRc, hSa⟩ := hreg
  have hnowH : (cs.foldl (process_container host) (scrape_acc0 reg)).nowH
      = (ok_snaps cs).map (identity_of host) := by
    rw [foldl_nowH]; simp [scrape_acc0]
  have hnowRn : (cs.foldl (process_container host) (scrape_acc0 reg)).nowRn
      = (ok_snaps cs).map (identity_of host) := by
    rw [foldl_nowRn]; simp [scrape_acc0]
  have hnowRc : (cs.foldl (process_container host) (scrape_acc0 reg)).nowRc
      = (ok_snaps cs).map (identity_of host) := by
    rw [foldl_nowRc]; simp [scrape_acc0]
  have hnowSa : (cs.foldl (process_container host) (scrape_acc0 reg)).nowSa
      = (ok_snaps cs).map (identity_of host) := by
    rw [foldl_nowSa]; simp [scrape_acc0]
  have hnowS : (cs.foldl (process_container host) (scrape_acc0 reg)).nowS
      = (ok_snaps cs).flatMap (status_tuples_of host) := by
    rw [foldl_nowS]; simp [scrape_acc0]
  have hlastS : (cs.foldl (process_container host) (scrape_acc0 reg)).lastS
      = reg.lastS ++ (ok_snaps cs).flatMap (status_tuples_of host) := by
    rw [foldl_lastS]; simp [scrape_acc0]
  have mainH : ∀ x : LabelTuple, ((scrape_once host reg cs).1.gH x).isSome
      ↔ x ∈ (ok_snaps cs).map (identity_of host) := by
    intro x
    have hgoal : (scrape_once host reg cs).1.gH
        = removeAll (cs.foldl (process_container host) (scrape_acc0 reg)).gH
            (reg.lastH.filter
              (fun t => t ∉ (cs.foldl (process_container host) (scrape_acc0 reg)).nowH)) := rfl
    rw [hgoal, ← hnowH]
    refine reconcile_published _ reg.gH reg.lastH _ _
      (fun x => by rw [hnowH]; exact foldl_gH_isSome host cs (scrape_acc0 reg) x)
      hH (fun x => by simp [List.mem_filter]) x
  have mainRn : ∀ x : LabelTuple, ((scrape_once host reg cs).1.gRn x).isSome
      ↔ x ∈ (ok_snaps cs).map (identity_of host) := by
    intro x
    have hgoal : (scrape_once host reg cs).1.gRn
        = removeAll (cs.foldl (process_container host) (scrape_acc0 reg)).gRn
            (reg.lastRn.filter
              (fun t => t ∉ (cs.foldl (process_container host) (scrape_acc0 reg)).nowRn)) := rfl
    rw [hgoal, ← hnowRn]
    refine reconcile_published _ reg.gRn reg.lastRn _ _
      (fun x => by rw [hnowRn]; exact foldl_gRn_isSome host cs (scrape_acc0 reg) x)
      hRn (fun x => by simp [List.mem_filter]) x
  have mainRc : ∀ x : LabelTuple, ((scrape_once host reg cs).1.gRc x).isSome
      ↔ x ∈ (ok_snaps cs).map (identity_of host) := by
    intro x
    have hgoal : (scrape_once host reg cs).1.gRc
        = removeAll (cs.foldl (process_container host) (scrape_acc0 reg)).gRc
            (reg.lastRc.filter
              (fun t => t ∉ (cs.foldl (process_container host) (scrape_acc0 reg)).nowRc)) := rfl
    rw [hgoal, ← hnowRc]
    refine reconcile_published _ reg.gRc reg.lastRc _ _
      (fun x => by rw [hnowRc]; exact foldl_gRc_isSome host cs (scrape_acc0 reg) x)
      hRc (fun x => by simp [List.mem_filter]) x
  have mainSa : ∀ x : LabelTuple, ((scrape_once host reg cs).1.gSa x).isSome
      ↔ x ∈ (ok_snaps cs).map (identity_of host) := by
    intro x
    have hgoal : (scrape_once host reg cs).1.gSa
        = removeAll (cs.foldl (process_container host) (scrape_acc0 reg)).gSa
            (reg.lastSa.filter
              (fun t => t ∉ (cs.foldl (process_container host) (scrape_acc0 reg)).nowSa)) := rfl
    rw [hgoal, ← hnowSa]
    refine reconcile_published _ reg.gSa reg.lastSa _ _
      (fun x => by rw [hnowSa]; exact foldl_gSa_isSome host cs (scrape_acc0 reg) x)
      hSa (fun x => by simp [List.mem_filter]) x
  have mainS : ∀ y : StatusTuple, ((scrape_once host reg cs).1.gS y).isSome
      ↔ y ∈ (ok_snaps cs).flatMap (status_tuples_of host) := by
    intro y
    have hgoal : (scrape_once host reg cs).1.gS
        = removeAll (cs.foldl (process_container host) (scrape_acc0 reg)).gS
            ((cs.foldl (process_container host) (scrape_acc0 reg)).lastS.filter
              (fun t => t ∉ (cs.foldl (process_container host) (scrape_acc0 reg)).nowS)) := rfl
    rw [hgoal, ← hnowS]
    refine reconcile_published _ reg.gS reg.lastS _ _
      (fun y => by rw [hnowS]; exact foldl_gS_isSome host cs (scrape_acc0 reg) y)
      hS (fun y => ?_) y
    rw [List.mem_filter]
    rw [hlastS, ← hnowS]
    simp only [List.mem_append, decide_eq_true_eq]
    constructor
    · rintro ⟨h1 | h1, h2⟩
      · exact ⟨h1, h2⟩
      · exact absurd h1 h2
    · rintro ⟨h1, h2⟩
      exact ⟨Or.inl h1, h2⟩
  refine ⟨mainH, mainS, mainRn, mainRc, mainSa, ?_, ?_, ?_, ?_, ?_⟩
  · intro x
    have hl : (scrape_once host reg cs).1.lastH
        = (cs.foldl (process_container host) (scrape_acc0 reg)).nowH := rfl
    rw [hl, hnowH]
    exact mainH x
  · intro y
    have hl : (scrape_once host reg cs).1.lastS
        = (cs.foldl (process_container host) (scrape_acc0 reg)).nowS := rfl
    rw [hl, hnowS]
    exact mainS y
  · intro x
    have hl : (scrape_once host reg cs).1.lastRn
        = (cs.foldl (process_container host) (scrape_acc0 reg)).nowRn := rfl
    rw [hl, hnowRn]
    exact mainRn x
  · intro x
    have hl : (scrape_once host reg cs).1.lastRc
        = (cs.foldl (process_container host) (scrape_acc0 reg)).nowRc := rfl
    rw [hl, hnowRc]
    exact mainRc x
  · intro x
    have hl : (scrape_once host reg cs).1.lastSa
        = (cs.foldl (process_container host) (scrape_acc0 reg)).nowSa := rfl
    rw [hl, hnowSa]
    exact mainSa x

/-- C3: for every container processed in a tick, all four status-category
rows of `docker_container_health_status` are written for its identity, with
exactly one row set to 1 and the other three to 0; the four values for that
identity sum to exactly 1 after the tick completes. -/
theorem one_hot_after_tick (host : String) (reg : Registry) (cs : List ContainerObs)
    (s : Snapshot) (hs : s ∈ ok_snaps cs) :
    (∃ st, st ∈ status_categories ∧ ∀ cat ∈ status_categories,
      (scrape_once host reg cs).1.gS (s.name, image_of s, s.short_id, host, cat)
        = some (if cat = st then 1 else 0)) ∧
    ((scrape_once host reg cs).1.gS (s.name, image_of s, s.short_id, host, "healthy")).getD 0
      + ((scrape_once host reg cs).1.gS (s.name, image_of s, s.short_id, host, "starting")).getD 0
      + ((scrape_once host reg cs).1.gS (s.name, image_of s, s.short_id, host, "unhealthy")).getD 0
      + ((scrape_once host reg cs).1.gS (s.name, image_of s, s.short_id, host, "none")).getD 0
      = 1 := by
  have hnowS : (cs.foldl (process_container host) (scrape_acc0 reg)).nowS
      = (ok_snaps cs).flatMap (status_tuples_of host) := by
    rw [foldl_nowS]; simp [scrape_acc0]
  obtain ⟨st, hst, hrows⟩ := foldl_onehot host cs (scrape_acc0 reg)
    s.name (image_of s) s.short_id host
    (Or.inl (List.mem_map.mpr ⟨s, hs, rfl⟩))
  have hpres : ∀ cat ∈ status_categories,
      (scrape_once host reg cs).1.gS (s.name, image_of s, s.short_id, host, cat)
        = (cs.foldl (process_container host) (scrape_acc0 reg)).gS
            (s.name, image_of s, s.short_id, host, cat) := by
    intro cat hcat
    have hgoal : (scrape_once host reg cs).1.gS
        = removeAll (cs.foldl (process_container host) (scrape_acc0 reg)).gS
            ((cs.foldl (process_container host) (scrape_acc0 reg)).lastS.filter
              (fun t => t ∉ (cs.foldl (process_container host) (scrape_acc0 reg)).nowS)) := rfl
    rw [hgoal, removeAll_apply, if_neg]
    intro hmem
    have hin : ((s.name, image_of s, s.short_id, host, cat) : StatusTuple)
        ∈ (cs.foldl (process_container host) (scrape_acc0 reg)).nowS := by
      rw [hnowS]
      exact List.mem_flatMap.mpr ⟨s, hs, by
        simp only [status_tuples_of, status_tuples]
        exact List.mem_map.mpr ⟨cat, hcat, rfl⟩⟩
    have := (List.mem_filter.mp hmem).2
    simp only [decide_eq_true_eq] at this
    exact this hin
  have hvals : ∀ cat ∈ status_categories,
      (scrape_once host reg cs).1.gS (s.name, image_of s, s.short_id, host, cat)
        = some (if cat = st then 1 else 0) := by
    intro cat hcat
    rw [hpres cat hcat]
    exact hrows cat hcat
  refine ⟨⟨st, hst, hvals⟩, ?_⟩
  rw [hvals "healthy" (by simp [status_categories]),
    hvals "starting" (by simp [status_categories]),
    hvals "unhealthy" (by simp [status_categories]),
    hvals "none" (by simp [status_categories])]
  have hst4 : st = "healthy" ∨ st = "starting" ∨ st = "unhealthy" ∨ st = "none" := by
    simpa [status_categories] using hst
  have hhs : ("healthy" : String) ≠ "starting" := by decide
  have hhu : ("healthy" : String) ≠ "unhealthy" := by decide
  have hhn : ("healthy" : String) ≠ "none" := by decide
  have hsu : ("starting" : String) ≠ "unhealthy" := by decide
  have hsn : ("starting" : String) ≠ "none" := by decide
  have hun : ("unhealthy" : String) ≠ "none" := by decide
  rcases hst4 with rfl | rfl | rfl | rfl <;>
    simp [hhs, hhu, hhn, hsu, hsn, hun, hhs.symm, hhu.symm, hhn.symm, hsu.symm, hsn.symm,
      hun.symm]

theorem scrape_once_tick_invariant_witness :
    Consistent initial_registry ∧
    ((∀ x : LabelTuple, ((scrape_once "myhost" initial_registry sample_containers).1.gH x).isSome
        ↔ x ∈ (ok_snaps sample_containers).map (identity_of "myhost")) ∧
     (∀ y : StatusTuple, ((scrape_once "myhost" initial_registry sample_containers).1.gS y).isSome
        ↔ y ∈ (ok_snaps sample_containers).flatMap (status_tuples_of "myhost")) ∧
     (∀ x : LabelTuple, ((scrape_once "myhost" initial_registry sample_containers).1.gRn x).isSome
        ↔ x ∈ (ok_snaps sample_containers).map (identity_of "myhost")) ∧
     (∀ x : LabelTuple, ((scrape_once "myhost" initial_registry sample_containers).1.gRc x).isSome
        ↔ x ∈ (ok_snaps sample_containers).map (identity_of "myhost")) ∧
     (∀ x : LabelTuple, ((scrape_once "myhost" initial_registry sample_containers).1.gSa x).isSome
        ↔ x ∈ (ok_snaps sample_containers).map (identity_of "myhost")) ∧
     Consistent (scrape_once "myhost" initial_registry sample_containers).1) :=
  ⟨initial_registry_consistent,
   scrape_once_tick_invariant "myhost" initial_registry sample_containers
     initial_registry_consistent⟩

theorem one_hot_after_tick_witness :
    sample_snap ∈ ok_snaps sample_containers ∧
    ((∃ st, st ∈ status_categories ∧ ∀ cat ∈ status_categories,
       (scrape_once "myhost" initial_registry sample_containers).1.gS
         (sample_snap.name, image_of sample_snap, sample_snap.short_id, "myhost", cat)
         = some (if cat = st then 1 else 0)) ∧
     ((scrape_once "myhost" initial_registry sample_containers).1.gS
        (sample_snap.name, image_of sample_snap, sample_snap.short_id, "myhost", "healthy")).getD 0
       + ((scrape_once "myhost" initial_registry sample_containers).1.gS
           (sample_snap.name, image_of sample_snap, sample_snap.short_id, "myhost", "starting")).getD 0
       + ((scrape_once "myhost" initial_registry sample_containers).1.gS
           (sample_snap.name, image_of sample_snap, sample_snap.short_id, "myhost", "unhealthy")).getD 0
       + ((scrape_once "myhost" initial_registry sample_containers).1.gS
           (sample_snap.name, image_of sample_snap, sample_snap.short_id, "myhost", "none")).getD 0
       = 1) :=
  ⟨by decide,
   one_hot_after_tick "myhost" initial_registry sample_containers sample_snap (by decide)⟩

/-- C2: derived health facts.  With a health object present: a lowercased
status of healthy/starting/unhealthy maps to score 1, 1/2, 0 with that
category; any other status string (including empty or unset, both of which
become "unknown") gives category "none" and score 0.  With no health object
at all: category "none" and score 1. -/
theorem health_fact_mapping (h : HealthObj) :
    (health_lowered h = "healthy" →
      health_num_of (some h) = 1 ∧ health_status_of (some h) = "healthy") ∧
    (health_lowered h = "starting" →
      health_num_of (some h) = 1/2 ∧ health_status_of (some h) = "starting") ∧
    (health_lowered h = "unhealthy" →
      health_num_of (some h) = 0 ∧ health_status_of (some h) = "unhealthy") ∧
    (health_lowered h ≠ "healthy" → health_lowered h ≠ "starting" →
      health_lowered h ≠ "unhealthy" →
      health_num_of (some h) = 0 ∧ health_status_of (some h) = "none") ∧
    (health_num_of none = 1 ∧ health_status_of none = "none") := by
  have hhs : ("healthy" : String) ≠ "starting" := by decide
  have hhu : ("healthy" : String) ≠ "unhealthy" := by decide
  have hsu : ("starting" : String) ≠ "unhealthy" := by decide
  refine ⟨?_, ?_, ?_, ?_, ?_⟩
  · intro heq
    constructor
    · simp [health_num_of, status_to_num, heq]
    · simp [health_status_of, heq]
  · intro heq
    constructor
    · simp [health_num_of, status_to_num, heq, hhs.symm]
    · simp [health_status_of, heq]
  · intro heq
    constructor
    · simp [health_num_of, status_to_num, heq, hhu.symm, hsu.symm]
    · simp [health_status_of, heq]
  · intro h1 h2 h3
    constructor
    · simp [health_num_of, status_to_num, h1, h2, h3]
    · simp [health_status_of, h1, h2, h3]
  · constructor
    · simp [health_num_of, status_to_num]
    · simp [health_status_of]

theorem health_fact_mapping_witness :
    (health_lowered ⟨some "Starting"⟩ = "starting" ∧
      health_num_of (some ⟨some "Starting"⟩) = 1/2 ∧
      health_status_of (some ⟨some "Starting"⟩) = "starting") ∧
    (health_lowered ⟨some ""⟩ ≠ "healthy" ∧ health_lowered ⟨some ""⟩ ≠ "starting" ∧
      health_lowered ⟨some ""⟩ ≠ "unhealthy" ∧
      health_num_of (some ⟨some ""⟩) = 0 ∧ health_status_of (some ⟨some ""⟩) = "none") :=
  ⟨⟨by decide,
    ((health_fact_mapping ⟨some "Starting"⟩).2.1 (by decide)).1,
    ((health_fact_mapping ⟨some "Starting"⟩).2.1 (by decide)).2⟩,
   ⟨by decide, by decide, by decide,
    ((health_fact_mapping ⟨some ""⟩).2.2.2.1 (by decide) (by decide) (by decide)).1,
    ((health_fact_mapping ⟨some ""⟩).2.2.2.1 (by decide) (by decide) (by decide)).2⟩⟩

/-- C5: restart-count extraction prefers the top-level field (the nested
one is then irrelevant), falls back to the nested field when the top-level
one is absent, yields 0 when both are absent or the selected value is
non-numeric, and matches the concrete 5/9/0 examples. -/
theorem restart_count_extraction :
    (∀ (t : PyVal) (s : Option PyVal),
      restart_count_of (some t) s = restart_count_of (some t) none) ∧
    (∀ v : PyVal, restart_count_of none (some v) = restart_count_of (some v) none) ∧
    restart_count_of none none = 0 ∧
    (∀ (t : PyVal) (s : Option PyVal), pyFloat t = none → restart_count_of (some t) s = 0) ∧
    restart_count_of (some (.vint 5)) (some (.vint 9)) = 5 ∧
    restart_count_of none (some (.vint 9)) = 9 := by
  refine ⟨fun t s => rfl, fun v => rfl, by decide, ?_, by decide, by decide⟩
  intro t s hf
  by_cases ht : pyTruthy t = true
  · simp [restart_count_of, ht, hf]
  · simp [restart_count_of, ht, pyFloat]

theorem restart_count_extraction_witness :
    pyFloat (.vstr "abc") = none ∧
    restart_count_of (some (.vstr "abc")) (some (.vint 9)) = 0 :=
  ⟨by decide,
   (restart_count_extraction).2.2.2.1 (.vstr "abc") (some (.vint 9)) (by decide)⟩

theorem digit_ne_Z {c : Char} (h : c.isDigit = true) : c ≠ 'Z' := by
  intro hz
  subst hz
  exact absurd h (by decide)

theorem rstripZ_digits (base frac : List Char) (hne : frac ≠ [])
    (hdig : frac.all Char.isDigit = true) :
    rstripZ (base ++ '.' :: (frac ++ ['Z'])) = base ++ '.' :: frac := by
  rcases List.eq_nil_or_concat frac with rfl | ⟨l2, a, rfl⟩
  · exact absurd rfl hne
  · have ha : a.isDigit = true := by
      rw [List.all_eq_true] at hdig
      exact hdig a (by simp)
    have haZ : (a = 'Z') = False := by
      simp [digit_ne_Z ha]
    simp [rstripZ, List.reverse_append, List.dropWhile_cons, haZ]

theorem takeWhile_no_dot (base rest : List Char) (hb : '.' ∉ base) :
    (base ++ '.' :: rest).takeWhile (· ≠ '.') = base ∧
    (base ++ '.' :: rest).dropWhile (· ≠ '.') = '.' :: rest := by
  induction base with
  | nil => simp [List.takeWhile_cons, List.dropWhile_cons]
  | cons c bs ih =>
    have hc : c ≠ '.' := fun h => hb (h ▸ List.mem_cons_self c bs)
    have hmem : '.' ∉ bs := fun h => hb (List.mem_cons_of_mem c h)
    obtain ⟨h1, h2⟩ := ih hmem
    have hpc : decide (c ≠ '.') = true := by simp [hc]
    constructor
    · rw [List.cons_append, List.takeWhile_cons, hpc, if_pos rfl, h1]
    · rw [List.cons_append, List.dropWhile_cons, hpc, if_pos rfl, h2]

theorem truncate_frac_split (base frac : List Char) (hb : '.' ∉ base) :
    truncate_frac_chars (base ++ '.' :: frac) = base ++ '.' :: frac.take 6 := by
  unfold truncate_frac_chars
  rw [if_pos (by simp : ('.' : Char) ∈ base ++ '.' :: frac)]
  rw [(takeWhile_no_dot base frac hb).1, (takeWhile_no_dot base frac hb).2]
  simp

/-- C4: `parse_started_at` truncates any fractional-second part to
microsecond precision before parsing the string as a UTC timestamp
(generically: extra fractional digits beyond six never change the result),
the nanosecond example equals the microsecond example and both give the
expected epoch value, and empty or malformed inputs yield no value, which
`scrape_once` publishes as 0. -/
theorem started_at_parsing :
    (∀ base frac : List Char, '.' ∉ base → frac ≠ [] → frac.all Char.isDigit = true →
      parse_started_at_chars (base ++ '.' :: (frac ++ ['Z']))
        = parse_started_at_chars (base ++ '.' :: (frac.take 6 ++ ['Z']))) ∧
    parse_started_at "2025-11-06T21:27:08.123456789Z"
      = parse_started_at "2025-11-06T21:27:08.123456Z" ∧
    parse_started_at "2025-11-06T21:27:08.123456Z" = some (1762464428 + 123456/1000000) ∧
    parse_started_at "" = none ∧
    parse_started_at "not-a-timestamp" = none ∧
    started_at_of (some "") = 0 ∧ started_at_of none = 0 := by
  refine ⟨?_, rfl, ?_, by decide, by decide, by decide, by decide⟩
  · intro base frac hb hne hdig
    have hne2 : frac.take 6 ≠ [] := by
      cases frac with
      | nil => exact absurd rfl hne
      | cons a l => simp [List.take]
    have hdig2 : (frac.take 6).all Char.isDigit = true := by
      rw [List.all_eq_true] at hdig ⊢
      exact fun a ha => hdig a (List.mem_of_mem_take ha)
    unfold parse_started_at_chars
    rw [if_neg (by simp : ¬(base ++ '.' :: (frac ++ ['Z']) = [])),
      if_neg (by simp : ¬(base ++ '.' :: (frac.take 6 ++ ['Z']) = []))]
    rw [rstripZ_digits base frac hne hdig, rstripZ_digits base (frac.take 6) hne2 hdig2]
    rw [truncate_frac_split base frac hb, truncate_frac_split base (frac.take 6) hb]
    simp [List.take_take]
  · have hval : parse_started_at "2025-11-06T21:27:08.123456Z"
        = some (dt_timestamp ⟨2025, 11, 6, 21, 27, 8, 123456⟩) := rfl
    rw [hval]
    have ht : toordinal 2025 11 6 = 739561 := by decide
    unfold dt_timestamp
    rw [ht]
    norm_num

theorem started_at_parsing_witness :
    ('.' ∉ ("2025-11-06T21:27:08").toList ∧ ("123456789").toList ≠ [] ∧
      ("123456789").toList.all Char.isDigit = true) ∧
    parse_started_at_chars
        (("2025-11-06T21:27:08").toList ++ '.' :: (("123456789").toList ++ ['Z']))
      = parse_started_at_chars
        (("2025-11-06T21:27:08").toList ++ '.' :: (("123456789").toList.take 6 ++ ['Z'])) :=
  ⟨⟨by decide, by decide, by decide⟩,
   (started_at_parsing).1 ("2025-11-06T21:27:08").toList ("123456789").toList
     (by decide) (by decide) (by decide)⟩

/-- C10: when a start timestamp parses successfully and carries an explicit
numeric offset, `parse_started_at` discards the offset (the
`.replace(tzinfo=timezone.utc)` of line 143) and reinterprets the
wall-clock fields as UTC, so for a non-zero offset its result differs from
the instant the timestamp actually denotes (`started_at_denoted`) by
exactly that offset. -/
theorem offset_reinterpreted_as_utc (s : String) (dt : NaiveDT) (off : Int)
    (h : fromisoformat_chars (truncate_frac_chars (rstripZ s.toList)) = some (dt, some off)) :
    parse_started_at s = some (dt_timestamp dt) ∧
    started_at_denoted s = some (dt_timestamp dt - (off : ℚ)) ∧
    (off ≠ 0 → parse_started_at s ≠ started_at_denoted s) := by
  have hnil : s.toList ≠ [] := by
    intro hn
    rw [hn] at h
    have hnone : fromisoformat_chars (truncate_frac_chars (rstripZ [])) = none := rfl
    rw [hnone] at h
    exact Option.noConfusion h
  have h1 : parse_started_at s = some (dt_timestamp dt) := by
    unfold parse_started_at parse_started_at_chars
    rw [if_neg hnil, h]
  have h2 : started_at_denoted s = some (dt_timestamp dt - (off : ℚ)) := by
    unfold started_at_denoted started_at_denoted_chars
    rw [if_neg hnil, h]
    simp
  refine ⟨h1, h2, ?_⟩
  intro hoff heq
  rw [h1, h2] at heq
  have := Option.some.inj heq
  have hzero : (off : ℚ) = 0 := by
    have := sub_eq_self.mp this.symm
    exact this
  exact hoff (by exact_mod_cast hzero)

theorem offset_reinterpreted_as_utc_witness :
    fromisoformat_chars (truncate_frac_chars (rstripZ ("2025-11-06T21:27:08+02:00").toList))
      = some (⟨2025, 11, 6, 21, 27, 8, 0⟩, some 7200) ∧
    (parse_started_at "2025-11-06T21:27:08+02:00"
        = some (dt_timestamp ⟨2025, 11, 6, 21, 27, 8, 0⟩) ∧
     started_at_denoted "2025-11-06T21:27:08+02:00"
        = some (dt_timestamp ⟨2025, 11, 6, 21, 27, 8, 0⟩ - ((7200 : Int) : ℚ)) ∧
     ((7200 : Int) ≠ 0 → parse_started_at "2025-11-06T21:27:08+02:00"
        ≠ started_at_denoted "2025-11-06T21:27:08+02:00")) :=
  ⟨by decide,
   offset_reinterpreted_as_utc "2025-11-06T21:27:08+02:00" ⟨2025, 11, 6, 21, 27, 8, 0⟩ 7200
     (by decide)⟩

theorem py_startswith_first_char (s p1 p2 : String) (c1 c2 : Char) (l1 l2 : List Char)
    (hp1 : p1.toList = c1 :: l1) (hp2 : p2.toList = c2 :: l2) (hne : c1 ≠ c2)
    (h : py_startswith s p1 = true) : py_startswith s p2 = false := by
  unfold py_startswith at h ⊢
  rw [hp1] at h
  rw [hp2]
  cases hs : s.toList with
  | nil =>
    rw [hs] at h
    exact absurd h (by simp [List.isPrefixOf])
  | cons a l =>
    rw [hs] at h
    have ha : c1 = a := by
      simp only [List.isPrefixOf, Bool.and_eq_true, beq_iff_eq] at h
      exact h.1
    subst ha
    simp [List.isPrefixOf, Ne.symm hne]

theorem dedup_foldl_nodup (l acc : List String) (h : acc.Nodup) :
    (l.foldl (fun acc c =>
      if canonical_unix_path c ∈ acc then acc else acc ++ [canonical_unix_path c]) acc).Nodup := by
  induction l generalizing acc with
  | nil => simpa
  | cons c cs ih =>
    rw [List.foldl_cons]
    by_cases hm : canonical_unix_path c ∈ acc
    · rw [if_pos hm]
      exact ih acc h
    · rw [if_neg hm]
      exact ih _ (by simp [List.nodup_append, h, hm])

theorem dedup_foldl_not_mem (l acc : List String) (x : String) (hx : x ∉ acc)
    (hl : x ∉ l.map canonical_unix_path) :
    x ∉ l.foldl (fun acc c =>
      if canonical_unix_path c ∈ acc then acc else acc ++ [canonical_unix_path c]) acc := by
  induction l generalizing acc with
  | nil => simpa
  | cons c cs ih =>
    rw [List.map_cons, List.mem_cons, not_or] at hl
    rw [List.foldl_cons]
    by_cases hm : canonical_unix_path c ∈ acc
    · rw [if_pos hm]
      exact ih acc hx hl.2
    · rw [if_neg hm]
      exact ih _ (by simp [hx, hl.1]) hl.2

theorem build_candidates_nodup (env : String) (defaults : List String)
    (h1 : canonical_unix_path env ≠ "from_env")
    (h2 : "from_env" ∉ defaults.map canonical_unix_path) :
    (build_candidates env defaults).Nodup := by
  unfold build_candidates
  have hc0 : (if env ≠ "" then [canonical_unix_path env] else []).Nodup := by
    by_cases he : env = "" <;> simp [he]
  have hc0m : "from_env" ∉ (if env ≠ "" then [canonical_unix_path env] else []) := by
    by_cases he : env = "" <;> simp [he, Ne.symm h1]
  rw [List.nodup_append]
  refine ⟨dedup_foldl_nodup defaults _ hc0, List.nodup_singleton _, ?_⟩
  intro a ha hb
  rw [List.mem_singleton] at hb
  subst hb
  exact dedup_foldl_not_mem defaults _ "from_env" hc0m h2 ha

/-- C6 counterexample: with the `DOCKER_HOST` override set to the literal
sentinel string `"from_env"`, the built candidate list contains that string
both first (the canonicalized override) and last (the unconditionally
appended environment-derived sentinel), so the list is not deduplicated. -/
theorem candidate_dedup_counterexample :
    ¬ (build_candidates "from_env" (default_socket_candidates "" none)).Nodup := by
  decide

/-- C6 (amended): every candidate with an http+docker:// or http+unix://
style scheme canonicalizes to the local-socket endpoint, every npipe://
alias to the canonical named-pipe path, and the override-plus-defaults
part of the candidate list is deduplicated after normalization in
first-occurrence order; the concrete alias pair collapses to one candidate.
Amendment forced by the counterexample: the final environment-derived
sentinel is appended unconditionally, so whole-list dedup holds only when
the override does not itself canonicalize to the sentinel string
"from_env". -/
theorem candidate_normalization_dedup :
    (∀ url : String,
      py_startswith (py_lower url) "http+docker://" = true ∨
        py_startswith (py_lower url) "http+unix://" = true →
      canonical_unix_path url = "unix:///var/run/docker.sock") ∧
    (∀ url : String, py_startswith (py_lower url) "npipe://" = true →
      canonical_unix_path url = "npipe:////./pipe/docker_engine") ∧
    (∀ (env : String) (defaults : List String),
      canonical_unix_path env ≠ "from_env" →
      "from_env" ∉ defaults.map canonical_unix_path →
      (build_candidates env defaults).Nodup) ∧
    build_candidates "" ["http+docker://local", "http+unix://local"]
      = ["unix:///var/run/docker.sock", "from_env"] := by
  refine ⟨?_, ?_, build_candidates_nodup, by decide⟩
  · intro url h
    by_cases hu : url = ""
    · subst hu
      revert h
      decide
    · unfold canonical_unix_path
      rw [if_neg hu]
      rcases h with h | h <;> simp [h]
  · intro url h
    have hd : py_startswith (py_lower url) "http+docker://" = false :=
      py_startswith_first_char (py_lower url) "npipe://" "http+docker://" 'n' 'h'
        ("pipe://").toList ("ttp+docker://").toList rfl rfl (by decide) h
    have hx : py_startswith (py_lower url) "http+unix://" = false :=
      py_startswith_first_char (py_lower url) "npipe://" "http+unix://" 'n' 'h'
        ("pipe://").toList ("ttp+unix://").toList rfl rfl (by decide) h
    have hu : url ≠ "" := by
      intro he
      subst he
      exact absurd h (by decide)
    unfold canonical_unix_path
    rw [if_neg hu]
    simp [hd, hx, h]

theorem candidate_normalization_dedup_witness :
    (py_startswith (py_lower "NPIPE://./pipe/x") "npipe://" = true ∧
      canonical_unix_path "NPIPE://./pipe/x" = "npipe:////./pipe/docker_engine") ∧
    (canonical_unix_path "tcp://10.0.0.4:2375" ≠ "from_env" ∧
      "from_env" ∉ (default_socket_candidates "" none).map canonical_unix_path ∧
      (build_candidates "tcp://10.0.0.4:2375" (default_socket_candidates "" none)).Nodup) :=
  ⟨⟨by decide, (candidate_normalization_dedup).2.1 "NPIPE://./pipe/x" (by decide)⟩,
   ⟨by decide, by decide,
    (candidate_normalization_dedup).2.2.1 "tcp://10.0.0.4:2375"
      (default_socket_candidates "" none) (by decide) (by decide)⟩⟩

theorem dict_insert_fresh (d : List (String × String)) (k v : String)
    (h : k ∉ d.map Prod.fst) : dict_insert d k v = d ++ [(k, v)] := by
  simp [dict_insert, h]

theorem try_candidates_error_keys (w : DockerWorld) (cands : List String) :
    ∀ (errs : List (String × String)) (atts : List String),
    errs.map Prod.fst = atts → (∀ c ∈ cands, c ∉ atts) → cands.Nodup →
    ∀ errs2, (try_candidates w cands errs atts).outcome = .error errs2 →
    errs2.map Prod.fst = (try_candidates w cands errs atts).attempted := by
  induction cands with
  | nil =>
    intro errs atts hinv hfresh hnd errs2 hout
    simp only [try_candidates] at hout ⊢
    cases hout
    exact hinv
  | cons base rest ih =>
    intro errs atts hinv hfresh hnd errs2 hout
    rw [List.nodup_cons] at hnd
    have hbase : base ∉ atts := hfresh base (List.mem_cons_self base rest)
    have hbkeys : base ∉ errs.map Prod.fst := by rw [hinv]; exact hbase
    have hfresh2 : ∀ c ∈ rest, c ∉ atts ++ [base] := by
      intro c hc
      simp only [List.mem_append, List.mem_singleton, not_or]
      exact ⟨hfresh c (List.mem_cons_of_mem base hc), fun he => hnd.1 (he ▸ hc)⟩
    have hinv2 : ∀ e, (dict_insert errs base e).map Prod.fst = atts ++ [base] := by
      intro e
      rw [dict_insert_fresh errs base e hbkeys]
      simp [hinv]
    by_cases hb : base = "from_env"
    · subst hb
      cases hw : w.fromEnvHost with
      | ok bu =>
        simp [try_candidates, hw] at hout
      | error e =>
        simp only [try_candidates, if_pos rfl, hw] at hout ⊢
        exact ih _ _ (hinv2 e) hfresh2 hnd.2 errs2 hout
    · by_cases hskip : (py_startswith base "unix://" && !file_exists_for_unix w.fileExists base) = true
      · simp only [try_candidates, if_neg hb, if_pos hskip] at hout ⊢
        exact ih _ _ hinv (fun c hc => hfresh c (List.mem_cons_of_mem base hc)) hnd.2 errs2 hout
      · cases hw : w.connect base with
        | ok u =>
          simp only [try_candidates, if_neg hb, if_neg hskip, hw] at hout
          exact absurd hout (by simp)
        | error e =>
          simp only [try_candidates, if_neg hb, if_neg hskip, hw] at hout ⊢
          exact ih _ _ (hinv2 e) hfresh2 hnd.2 errs2 hout

theorem try_candidates_skip_not_attempted (w : DockerWorld) (cands : List String) :
    ∀ (errs : List (String × String)) (atts : List String) (base : String),
    py_startswith base "unix://" = true →
    w.fileExists (String.mk (base.toList.drop 7)) = false →
    base ∉ atts →
    base ∉ (try_candidates w cands errs atts).attempted := by
  induction cands with
  | nil =>
    intro errs atts base hunix hex hatt
    simpa [try_candidates] using hatt
  | cons c rest ih =>
    intro errs atts base hunix hex hatt
    have hbne : base ≠ "from_env" := by
      intro he
      rw [he] at hunix
      exact absurd hunix (by decide)
    have hmem : base ∉ atts ++ [c] → base ∉ atts ++ [c] := id
    by_cases hc : c = "from_env"
    · subst hc
      simp only [try_candidates, if_pos rfl]
      cases hw : w.fromEnvHost with
      | ok bu => simp [hatt, hbne]
      | error e => exact ih _ _ base hunix hex (by simp [hatt, hbne])
    · by_cases hskip : (py_startswith c "unix://" && !file_exists_for_unix w.fileExists c) = true
      · simp only [try_candidates, if_neg hc, if_pos hskip]
        exact ih _ _ base hunix hex hatt
      · have hcb : base ≠ c := by
          intro he
          subst he
          apply hskip
          rw [hunix, Bool.true_and]
          have : file_exists_for_unix w.fileExists base = false := by
            unfold file_exists_for_unix
            rw [if_pos hunix]
            exact hex
          rw [this]
          rfl
        simp only [try_candidates, if_neg hc, if_neg hskip]
        cases hw : w.connect c with
        | ok u => simp [hatt, hcb]
        | error e => exact ih _ _ base hunix hex (by simp [hatt, hcb])

/-- C7: a unix-socket candidate whose path does not exist on disk is
skipped without a connection attempt and without a recorded failure reason;
when no candidate succeeds, resolution fails with the "runtime unreachable"
error carrying exactly one attempted-candidate/failure-reason pair per
candidate actually attempted, in order. -/
theorem endpoint_resolution_failure (w : DockerWorld) (env : String)
    (defaults : List String)
    (h1 : canonical_unix_path env ≠ "from_env")
    (h2 : "from_env" ∉ defaults.map canonical_unix_path) :
    (∀ base : String, py_startswith base "unix://" = true →
      w.fileExists (String.mk (base.toList.drop 7)) = false →
      base ∉ (create_docker_client w env defaults).attempted) ∧
    (∀ errs2, (create_docker_client w env defaults).outcome = .error errs2 →
      errs2.map Prod.fst = (create_docker_client w env defaults).attempted) ∧
    (∀ (base : String) (errs2 : List (String × String)),
      py_startswith base "unix://" = true →
      w.fileExists (String.mk (base.toList.drop 7)) = false →
      (create_docker_client w env defaults).outcome = .error errs2 →
      base ∉ errs2.map Prod.fst) := by
  have hskip : ∀ base : String, py_startswith base "unix://" = true →
      w.fileExists (String.mk (base.toList.drop 7)) = false →
      base ∉ (create_docker_client w env defaults).attempted := by
    intro base hu he
    exact try_candidates_skip_not_attempted w _ [] [] base hu he (by simp)
  have hkeys : ∀ errs2, (create_docker_client w env defaults).outcome = .error errs2 →
      errs2.map Prod.fst = (create_docker_client w env defaults).attempted := by
    intro errs2 hout
    exact try_candidates_error_keys w _ [] [] rfl (by simp)
      (build_candidates_nodup env defaults h1 h2) errs2 hout
  refine ⟨hskip, hkeys, ?_⟩
  intro base errs2 hu he hout
  rw [hkeys errs2 hout]
  exact hskip base hu he

theorem endpoint_resolution_failure_witness :
    (canonical_unix_path "" ≠ "from_env" ∧
      "from_env" ∉ (default_socket_candidates "" none).map canonical_unix_path) ∧
    ((∀ base : String, py_startswith base "unix://" = true →
        sample_world.fileExists (String.mk (base.toList.drop 7)) = false →
        base ∉ (create_docker_client sample_world "" (default_socket_candidates "" none)).attempted) ∧
     (∀ errs2, (create_docker_client sample_world "" (default_socket_candidates "" none)).outcome
          = .error errs2 →
        errs2.map Prod.fst
          = (create_docker_client sample_world "" (default_socket_candidates "" none)).attempted) ∧
     (∀ (base : String) (errs2 : List (String × String)),
        py_startswith base "unix://" = true →
        sample_world.fileExists (String.mk (base.toList.drop 7)) = false →
        (create_docker_client sample_world "" (default_socket_candidates "" none)).outcome
          = .error errs2 →
        base ∉ errs2.map Prod.fst)) :=
  ⟨⟨by decide, by decide⟩,
   endpoint_resolution_failure sample_world "" (default_socket_candidates "" none)
     (by decide) (by decide)⟩

/-- C8: starting from any reachable backoff (between the floor 1 and the
ceiling 30), an iteration keeps the backoff in that range; consecutive
resolution failures sleep non-decreasing durations capped at 30, each
failure doubling the (capped) backoff; and the failure immediately
following a successful connection sleeps exactly the floor duration 1. -/
theorem backoff_behaviour (interval : ℚ) (st : LoopState) (r r2 : Bool)
    (scr scr2 : ScrapeOut) (h1 : 1 ≤ st.backoff) (h2 : st.backoff ≤ 30) :
    (1 ≤ (loop_iter interval st r scr).1.backoff ∧
      (loop_iter interval st r scr).1.backoff ≤ 30) ∧
    (st.connected = false →
      (loop_iter interval st false scr).1.backoff = min (st.backoff * 2) 30 ∧
      (loop_iter interval st false scr).2 ≤ 30 ∧
      (loop_iter interval st false scr).2
        ≤ (loop_iter interval (loop_iter interval st false scr).1 false scr2).2) ∧
    (st.connected = false →
      (loop_iter interval ((loop_iter interval st true ScrapeOut.ok).1) r2
        ScrapeOut.dockerErr).2 = 1) := by
  have hmin1 : (1 : ℚ) ≤ min (st.backoff * 2) 30 := le_min (by linarith) (by norm_num)
  have hmin2 : min (st.backoff * 2) 30 ≤ 30 := min_le_right _ _
  have hmin3 : (1 : ℚ) ≤ min ((1 : ℚ) * 2) 30 := le_min (by norm_num) (by norm_num)
  have hmin4 : min ((1 : ℚ) * 2) 30 ≤ 30 := min_le_right _ _
  refine ⟨?_, ?_, ?_⟩
  · cases hc : st.connected <;> cases r <;> cases scr <;>
      simp [loop_iter, hc, h1, h2, hmin1, hmin2, hmin3, hmin4]
  · intro hc
    have hstep : ∀ s : ScrapeOut, loop_iter interval st false s
        = (⟨false, min (st.backoff * 2) 30⟩, min st.backoff 30) := by
      intro s
      simp [loop_iter, hc]
    have hstep2 : loop_iter interval (⟨false, min (st.backoff * 2) 30⟩ : LoopState) false scr2
        = (⟨false, min (min (st.backoff * 2) 30 * 2) 30⟩, min (min (st.backoff * 2) 30) 30) := by
      simp [loop_iter]
    rw [hstep scr, hstep2]
    refine ⟨rfl, min_le_right _ _, ?_⟩
    rw [min_eq_left hmin2]
    exact min_le_min (by linarith) (le_refl (30 : ℚ))
  · intro hc
    cases r2 <;> simp [loop_iter, hc]

theorem backoff_behaviour_witness :
    ((1 : ℚ) ≤ (LoopState.mk false 1).backoff ∧ (LoopState.mk false 1).backoff ≤ 30) ∧
    ((1 ≤ (loop_iter 10 (LoopState.mk false 1) true ScrapeOut.ok).1.backoff ∧
       (loop_iter 10 (LoopState.mk false 1) true ScrapeOut.ok).1.backoff ≤ 30) ∧
     ((LoopState.mk false 1).connected = false →
       (loop_iter 10 (LoopState.mk false 1) false ScrapeOut.ok).1.backoff
         = min ((LoopState.mk false 1).backoff * 2) 30 ∧
       (loop_iter 10 (LoopState.mk false 1) false ScrapeOut.ok).2 ≤ 30 ∧
       (loop_iter 10 (LoopState.mk false 1) false ScrapeOut.ok).2
         ≤ (loop_iter 10 (loop_iter 10 (LoopState.mk false 1) false ScrapeOut.ok).1 false
             ScrapeOut.ok).2) ∧
     ((LoopState.mk false 1).connected = false →
       (loop_iter 10 ((loop_iter 10 (LoopState.mk false 1) true ScrapeOut.ok).1) false
         ScrapeOut.dockerErr).2 = 1)) :=
  ⟨⟨by decide, by decide⟩,
   backoff_behaviour 10 (LoopState.mk false 1) true false ScrapeOut.ok ScrapeOut.ok
     (by decide) (by decide)⟩

theorem scrape_once_fst_congr (host : String) (reg : Registry) (cs1 cs2 : List ContainerObs)
    (h : cs1.foldl (process_container host) (scrape_acc0 reg)
       = cs2.foldl (process_container host) (scrape_acc0 reg)) :
    (scrape_once host reg cs1).1 = (scrape_once host reg cs2).1 := by
  simp only [scrape_once]
  rw [h]

/-- C9: a container whose per-container processing raises is isolated: the
resulting registry is exactly the one obtained without that container (it
contributes no facts, every other container of the same pass is still
processed, and no exception escapes the pass), its failure is logged under
its best-known name, and a pass that completes keeps the loop connected
(the failure is never promoted to a connection-level failure). -/
theorem per_container_isolation (host : String) (reg : Registry)
    (pre post : List ContainerObs) (n : Option String) (m : String) :
    (scrape_once host reg (pre ++ ContainerObs.err n m :: post)).1
      = (scrape_once host reg (pre ++ post)).1 ∧
    warn_line n m ∈ (scrape_once host reg (pre ++ ContainerObs.err n m :: post)).2 ∧
    (∀ (interval b : ℚ) (r : Bool),
      (loop_iter interval ⟨true, b⟩ r ScrapeOut.ok).1.connected = true) := by
  refine ⟨?_, ?_, ?_⟩
  · apply scrape_once_fst_congr
    rw [List.foldl_append, List.foldl_append, List.foldl_cons, process_container_err]
  · have hsnd : (scrape_once host reg (pre ++ ContainerObs.err n m :: post)).2
        = (pre ++ ContainerObs.err n m :: post).filterMap (fun c => match c with
            | .ok _ => none
            | .err n2 m2 => some (warn_line n2 m2)) := rfl
    rw [hsnd]
    exact List.mem_filterMap.mpr ⟨.err n m, by simp, rfl⟩
  · intro interval b r
    simp [loop_iter]
